import Mathlib

/-!
Verification development for the MCP tool process supervisor of this
repository.  The definitions below are a shallow embedding of the Python
source under `microservice/mcp_tools` and `microservice/mcp_2`:
the port allocator (`routes/tools.py`), the refresh reconciliation
(`routes/mcp_tools.py`), the desired-state caches and restart policy
(`utils/_check_tools_status.py`), the spec translators
(`utils/_tool_args_converter.py`, `mcp_auto_manager.py`) and the change
detector and health checker (`mcp_auto_manager.py`).

Modelling conventions, used throughout:
* Python dict-valued configuration is modelled by insertion-ordered
  association lists with Python's assignment semantics (`dictInsert`).
* A JSON string field that may be null is `Option String`; Python
  truthiness (`None` and `""` are falsy) is `pyTruthy`.
* Wall-clock time is `Nat` seconds; the OS bind-and-release probe of the
  allocator is an arbitrary predicate `osFree : Nat → Bool`; the random
  sample drawn by `random.sample` is an explicit argument.
* `int(s)` is modelled on the unsigned decimal strings that ports take in
  this system; other Python forms (signs, inner whitespace, underscores)
  do not occur in port data.
-/

namespace Amadeus

/-! ### Python dict / list / string helpers -/

/-- Python dict lookup `m.get(k)` on an insertion-ordered association list. -/
def dictGet? {β : Type} : List (String × β) → String → Option β
  | [], _ => none
  | (k', v) :: rest, k => if k' = k then some v else dictGet? rest k

/-- Python dict assignment `m[k] = v`: overwrite in place when the key
exists, append otherwise (insertion order of keys is preserved). -/
def dictInsert {β : Type} (k : String) (v : β) : List (String × β) → List (String × β)
  | [] => [(k, v)]
  | (k', v') :: rest => if k' = k then (k', v) :: rest else (k', v') :: dictInsert k v rest

/-- The `used_ports.setdefault(port, []).append(info)` pattern of
`refresh_tools`: append `v` to the bucket of key `k`. -/
def dictAppend {β : Type} (k : String) (v : β) : List (String × List β) → List (String × List β)
  | [] => [(k, [v])]
  | (k', vs) :: rest => if k' = k then (k', vs ++ [v]) :: rest else (k', vs) :: dictAppend k v rest

/-- In-place update of one list element, `xs[i] = f xs[i]`. -/
def listModify {α : Type} (f : α → α) : Nat → List α → List α
  | _, [] => []
  | 0, a :: as => f a :: as
  | n + 1, a :: as => a :: listModify f n as

/-- Numeric value of a decimal digit string. -/
def digitsVal (cs : List Char) : Nat :=
  cs.foldl (fun acc c => 10 * acc + (c.toNat - 48)) 0

/-- Models Python `int(s)` on the unsigned decimal strings that port
values take in this system; any other string raises, modelled as `none`. -/
def pyInt? (s : String) : Option Nat :=
  if s.data ≠ [] ∧ s.data.all Char.isDigit then some (digitsVal s.data) else none

/-- Digit characters of `n` in base 10, most significant first
(`fuel` bounds the recursion; `n + 1` is always enough). -/
def natToStrCore : Nat → Nat → List Char
  | 0, _ => []
  | fuel + 1, n =>
    if n < 10 then [Char.ofNat (48 + n)]
    else natToStrCore fuel (n / 10) ++ [Char.ofNat (48 + n % 10)]

/-- Models Python `str(n)` for a natural number `n`. -/
def natToStr (n : Nat) : String := ⟨natToStrCore (n + 1) n⟩

/-- Python truthiness of a nullable JSON string (`None` and `""` are falsy). -/
def pyTruthy : Option String → Bool
  | none => false
  | some s => !s.isEmpty

/-- One left-to-right pass of Python `s.replace("  ", " ")`: each
non-overlapping occurrence of two spaces becomes one space. -/
def replaceDoubleSpace : List Char → List Char
  | [] => []
  | [c] => [c]
  | c :: d :: rest =>
    if c = ' ' ∧ d = ' ' then ' ' :: replaceDoubleSpace rest
    else c :: replaceDoubleSpace (d :: rest)

/-- `full_cmd.replace("  ", " ")` as used by `tool_args_converter`. -/
def pyReplaceDouble (s : String) : String := ⟨replaceDoubleSpace s.data⟩

/-- Whether two adjacent spaces occur somewhere in the character list. -/
def hasDoubleSpace : List Char → Bool
  | [] => false
  | [_] => false
  | c :: d :: rest => if c = ' ' ∧ d = ' ' then true else hasDoubleSpace (d :: rest)

/-- Substring containment test (Python `needle in hay`). -/
def containsSub (needle : List Char) : List Char → Bool
  | [] => needle.isEmpty
  | c :: rest => needle.isPrefixOf (c :: rest) || containsSub needle rest

/-- Drop leading spaces (the only whitespace occurring in commands). -/
def dropLeadingSpaces : List Char → List Char
  | ' ' :: rest => dropLeadingSpaces rest
  | cs => cs

/-- Models Python `s.strip()` on the space-only whitespace of commands. -/
def pyStrip (s : String) : String :=
  ⟨(dropLeadingSpaces (dropLeadingSpaces s.data.reverse).reverse)⟩

/-! ### Data model (rows of the `tools` configuration store) -/

/-- The `released` object of one tool version.  The `port` field is
`Option String`: `none` models JSON null (the pydantic models always emit
the key itself). -/
structure Released where
  env : List (String × String)
  args : String
  port : Option String
  method : String
  required_env : List String
deriving Repr, DecidableEq

/-- One element of a tool's `versions` array; `released = none` models a
missing, null or empty `released` object (all falsy in the source's
`if 'released' in version and version['released']` guards). -/
structure Version where
  version : String
  released : Option Released
deriving Repr, DecidableEq

/-- One row of the `tools` table as fetched from the configuration store. -/
structure Tool where
  tool_id : String
  name : String
  versions : List Version
  on_status : String
  company_id : String
deriving Repr, DecidableEq

/-! ### Port allocator (`routes/tools.py`, `get_free_port`) -/

/-- Configured inclusive port range (`_load_port_config`). -/
structure PortConfig where
  start_port : Nat
  end_port : Nat
deriving Repr, DecidableEq

/-- `range(start_port, end_port + 1)`. -/
def portRange (cfg : PortConfig) : List Nat :=
  List.range' cfg.start_port (cfg.end_port + 1 - cfg.start_port)

/-- `candidate_ports = [port for port in port_range if port not in used_ports]`. -/
def gfpCandidates (cfg : PortConfig) (used : List Nat) : List Nat :=
  (portRange cfg).filter (fun p => decide (p ∉ used))

/-- The candidate list actually probed: when there are more than 100
candidates, the random sample extended by the first, middle and last
candidate; otherwise the full candidate list. -/
def gfpProbed (cfg : PortConfig) (used : List Nat) (sampled : List Nat) : List Nat :=
  let candidates := gfpCandidates cfg used
  if 100 < candidates.length then
    sampled ++ [candidates.headD 0, candidates.getD (candidates.length / 2) 0,
      candidates.getLastD 0]
  else candidates

/-- `get_free_port`, numeric core.  `used` is the Supabase-derived
used-ports cache (already restricted to the configured range when built),
`osFree p` is the outcome of the bind-and-release probe on port `p`, and
`sampled` is the list drawn by `random.sample(candidate_ports, 100)` in
this call (empty when the sampling branch is not taken).  Candidate
selection, the sampling extension, the in-range double check of the probe
loop, and the full-scan fallback over the remaining ports follow the
source. -/
def get_free_port_num (cfg : PortConfig) (used : List Nat) (osFree : Nat → Bool)
    (sampled : List Nat) : Option Nat :=
  match (gfpProbed cfg used sampled).find?
      (fun p => osFree p && decide (p ∈ portRange cfg)) with
  | some p => some p
  | none =>
    if (gfpProbed cfg used sampled).length < (portRange cfg).length then
      ((portRange cfg).filter
        (fun p => decide (p ∉ gfpProbed cfg used sampled) && decide (p ∉ used))).find? osFree
    else none

/-- `get_free_port` returns `str(free_port)` on success and `None` when
the range is exhausted. -/
def get_free_port (cfg : PortConfig) (used : List Nat) (osFree : Nat → Bool)
    (sampled : List Nat) : Option String :=
  (get_free_port_num cfg used osFree sampled).map natToStr

/-! ### Helper lemmas about the allocator -/

theorem headD_mem {α : Type} (l : List α) (d : α) (h : l ≠ []) : l.headD d ∈ l := by
  cases l with
  | nil => exact absurd rfl h
  | cons a as => simp [List.headD]

theorem getD_mem {α : Type} (l : List α) (i : Nat) (d : α) (h : i < l.length) :
    l.getD i d ∈ l := by
  induction l generalizing i with
  | nil => simp at h
  | cons a as ih =>
    cases i with
    | zero => simp [List.getD]
    | succ n =>
      simp only [List.getD_cons_succ]
      exact List.mem_cons_of_mem _ (ih n (by simpa using h))

theorem getLastD_mem {α : Type} (l : List α) (d : α) (h : l ≠ []) : l.getLastD d ∈ l := by
  cases l with
  | nil => exact absurd rfl h
  | cons a as =>
    rw [List.getLastD_eq_getLast?, List.getLast?_eq_getLast (a :: as) (by simp)]
    simp [List.getLast_mem]

theorem mem_portRange {cfg : PortConfig} {p : Nat} (h : p ∈ portRange cfg) :
    cfg.start_port ≤ p ∧ p ≤ cfg.end_port := by
  unfold portRange at h
  rw [List.mem_range'_1] at h
  omega

/-- Every port returned by the allocator lies in the configured range. -/
theorem mem_gfpProbed {cfg : PortConfig} {used sampled : List Nat} {x : Nat}
    (hs : ∀ y ∈ sampled, y ∈ gfpCandidates cfg used)
    (hx : x ∈ gfpProbed cfg used sampled) : x ∈ gfpCandidates cfg used := by
  unfold gfpProbed at hx
  by_cases hlen : 100 < (gfpCandidates cfg used).length
  · rw [if_pos hlen] at hx
    have hne : gfpCandidates cfg used ≠ [] := by
      intro hnil; rw [hnil] at hlen; simp at hlen
    rcases List.mem_append.mp hx with hx | hx
    · exact hs x hx
    · simp only [List.mem_cons, List.not_mem_nil, or_false] at hx
      rcases hx with h1 | h1 | h1
      · rw [h1]; exact headD_mem _ 0 hne
      · rw [h1]; exact getD_mem _ _ 0 (by omega)
      · rw [h1]; exact getLastD_mem _ 0 hne
  · rw [if_neg hlen] at hx
    exact hx

theorem mem_gfpCandidates {cfg : PortConfig} {used : List Nat} {x : Nat}
    (hx : x ∈ gfpCandidates cfg used) : x ∈ portRange cfg ∧ x ∉ used := by
  unfold gfpCandidates at hx
  refine ⟨List.mem_of_mem_filter hx, ?_⟩
  have := List.of_mem_filter hx
  exact of_decide_eq_true this

theorem get_free_port_num_range {cfg : PortConfig} {used : List Nat} {osFree : Nat → Bool}
    {sampled : List Nat} {p : Nat}
    (h : get_free_port_num cfg used osFree sampled = some p) :
    cfg.start_port ≤ p ∧ p ≤ cfg.end_port := by
  unfold get_free_port_num at h
  cases hfind : (gfpProbed cfg used sampled).find?
      (fun p => osFree p && decide (p ∈ portRange cfg)) with
  | some q =>
    rw [hfind] at h
    have hq := List.find?_some hfind
    simp only [Bool.and_eq_true, decide_eq_true_eq] at hq
    have hmem : q ∈ portRange cfg := hq.2
    cases h
    exact mem_portRange hmem
  | none =>
    rw [hfind] at h
    by_cases hlen : (gfpProbed cfg used sampled).length < (portRange cfg).length
    · rw [if_pos hlen] at h
      exact mem_portRange (List.mem_of_mem_filter (List.mem_of_find?_eq_some h))
    · rw [if_neg hlen] at h
      exact absurd h (by simp)

/-- Every port returned by the allocator avoids the used-ports cache,
provided the random sample was drawn from the candidate list (which
excludes used ports), as `random.sample(candidate_ports, ...)` guarantees. -/
theorem get_free_port_num_not_used {cfg : PortConfig} {used : List Nat} {osFree : Nat → Bool}
    {sampled : List Nat} {p : Nat}
    (hs : ∀ x ∈ sampled, x ∈ gfpCandidates cfg used)
    (h : get_free_port_num cfg used osFree sampled = some p) :
    p ∉ used := by
  unfold get_free_port_num at h
  cases hfind : (gfpProbed cfg used sampled).find?
      (fun p => osFree p && decide (p ∈ portRange cfg)) with
  | some q =>
    rw [hfind] at h
    cases h
    exact (mem_gfpCandidates (mem_gfpProbed hs (List.mem_of_find?_eq_some hfind))).2
  | none =>
    rw [hfind] at h
    by_cases hlen : (gfpProbed cfg used sampled).length < (portRange cfg).length
    · rw [if_pos hlen] at h
      have hpred := List.of_mem_filter (List.mem_of_find?_eq_some h)
      exact of_decide_eq_true ((Bool.and_eq_true _ _).mp hpred).2
    · rw [if_neg hlen] at h
      exact absurd h (by simp)

/-- **C8**: the port allocator's result is always either a port within the
configured inclusive range `[start_port, end_port]` — on both the
sampled-probe path and the full-scan fallback path — or the soft-failure
value `none` when the range is exhausted; it never returns a port outside
the configured range. -/
theorem get_free_port_in_range (cfg : PortConfig) (used : List Nat) (osFree : Nat → Bool)
    (sampled : List Nat) :
    (∃ p, get_free_port cfg used osFree sampled = some (natToStr p) ∧
       cfg.start_port ≤ p ∧ p ≤ cfg.end_port) ∨
    get_free_port cfg used osFree sampled = none := by
  cases h : get_free_port_num cfg used osFree sampled with
  | none => right; simp [get_free_port, h]
  | some p =>
    left
    refine ⟨p, ?_, get_free_port_num_range h⟩
    simp [get_free_port, h]

/-! ### Decimal printing round-trips with the model of `int` -/

theorem digitsVal_append (xs : List Char) (c : Char) :
    digitsVal (xs ++ [c]) = 10 * digitsVal xs + (c.toNat - 48) := by
  simp [digitsVal, List.foldl_append]

theorem digitChar_spec (m : Nat) (hm : m < 10) :
    (Char.ofNat (48 + m)).isDigit = true ∧ (Char.ofNat (48 + m)).toNat - 48 = m := by
  interval_cases m <;> exact ⟨by decide, by decide⟩

theorem natToStrCore_spec : ∀ fuel n, n < fuel →
    (natToStrCore fuel n).all Char.isDigit = true ∧
    digitsVal (natToStrCore fuel n) = n ∧ natToStrCore fuel n ≠ [] := by
  intro fuel
  induction fuel with
  | zero => intro n h; omega
  | succ fuel ih =>
    intro n h
    by_cases h10 : n < 10
    · unfold natToStrCore
      rw [if_pos h10]
      refine ⟨?_, ?_, by simp⟩
      · simpa using (digitChar_spec n h10).1
      · simpa [digitsVal] using (digitChar_spec n h10).2
    · unfold natToStrCore
      rw [if_neg h10]
      have hdiv : n / 10 < fuel := by
        have h1 : n / 10 < n := Nat.div_lt_self (by omega) (by omega)
        omega
      obtain ⟨ha, hv, -⟩ := ih (n / 10) hdiv
      have hm : n % 10 < 10 := Nat.mod_lt _ (by omega)
      refine ⟨?_, ?_, by simp⟩
      · rw [List.all_append, ha]
        simpa using (digitChar_spec (n % 10) hm).1
      · rw [digitsVal_append, hv, (digitChar_spec (n % 10) hm).2]
        omega

theorem pyInt?_natToStr (n : Nat) : pyInt? (natToStr n) = some n := by
  obtain ⟨ha, hv, hn⟩ := natToStrCore_spec (n + 1) n (Nat.lt_succ_self n)
  unfold pyInt? natToStr
  rw [if_pos ⟨hn, ha⟩, hv]

theorem natToStr_ne_empty (n : Nat) : natToStr n ≠ "" := by
  obtain ⟨-, -, hn⟩ := natToStrCore_spec (n + 1) n (Nat.lt_succ_self n)
  intro h
  exact hn (congrArg String.data h)

theorem natToStr_isEmpty_false (n : Nat) : (natToStr n).isEmpty = false := by
  cases he : (natToStr n).isEmpty with
  | false => rfl
  | true => exact absurd ((String.isEmpty_iff (natToStr n)).mp he) (natToStr_ne_empty n)

theorem pyTruthy_natToStr (n : Nat) : pyTruthy (some (natToStr n)) = true := by
  simp [pyTruthy, natToStr_isEmpty_false n]

/-! ### Refresh reconciliation (`routes/mcp_tools.py`, `refresh_tools`)

The embedded portion is the port-collision and missing-port reconciliation
of one `refresh_tools` call: partition tools by `on_status`, collect the
`used_ports` buckets, reassign duplicated ports (first claimant in list
order keeps its port), assign ports to portless versions, and accumulate
the `tools_to_update` write-back list.  The allocator's per-call random
samples are threaded through as the list `samples`. -/

/-- One entry of a `used_ports` bucket. -/
structure Claimant where
  tool_id : String
  tool_name : String
  version_index : Nat
deriving Repr, DecidableEq

/-- One entry of `tools_to_update` (the Supabase write-back batch). -/
structure ToolUpdate where
  tool_id : String
  versions : List Version
deriving Repr, DecidableEq

/-- Port collection over one tool's versions (inner loop of the
`used_ports` build; `i` is `version_index`). -/
def collectVersionPorts (tid tname : String) : Nat → List Version → List (String × List Claimant) → List (String × List Claimant)
  | _, [], m => m
  | i, v :: vs, m =>
    let m' := match v.released with
      | some r => if pyTruthy r.port then dictAppend (r.port.getD "") ⟨tid, tname, i⟩ m else m
      | none => m
    collectVersionPorts tid tname (i + 1) vs m'

/-- The `used_ports` dict: port string to its claimants, in tool order. -/
def collectPorts : List Tool → List (String × List Claimant) → List (String × List Claimant)
  | [], m => m
  | t :: ts, m => collectPorts ts (collectVersionPorts t.tool_id t.name 0 t.versions m)

/-- `version['released']['port'] = new_port` on one version object. -/
def setVersionPort (np : String) (v : Version) : Version :=
  { v with released := v.released.map (fun r => { r with port := some np }) }

/-- `tool['versions'][version_index]['released']['port'] = new_port`. -/
def reassignTool (vi : Nat) (np : String) (t : Tool) : Tool :=
  { t with versions := listModify (setVersionPort np) vi t.versions }

/-- Find the first tool with the claimant's id in `active_tools`, set its
duplicated version's port when the allocation succeeded (`if new_port:`),
and produce the `tools_to_update` entry (appended in either case, with the
tool's versions after the mutation). -/
def reassignFirst (np : Option String) (c : Claimant) : List Tool → List Tool × Option ToolUpdate
  | [] => ([], none)
  | t :: ts =>
    if t.tool_id = c.tool_id then
      let t' := if pyTruthy np then reassignTool c.version_index (np.getD "") t else t
      (t' :: ts, some ⟨c.tool_id, t'.versions⟩)
    else
      let r := reassignFirst np c ts
      (t :: r.1, r.2)

/-- Handle one later claimant of a duplicated port: the allocator is
called only when a matching tool exists, consuming one random sample. -/
def reassignOne (cfg : PortConfig) (used : List Nat) (osFree : Nat → Bool) (c : Claimant) :
    List Tool × List ToolUpdate × List (List Nat) → List Tool × List ToolUpdate × List (List Nat) :=
  fun st =>
    if st.1.any (fun t => decide (t.tool_id = c.tool_id)) then
      let np := get_free_port cfg used osFree (st.2.2.headD [])
      let r := reassignFirst np c st.1
      (r.1, st.2.1 ++ r.2.toList, st.2.2.tail)
    else st

/-- All later claimants of one duplicated port, in bucket order. -/
def processGroup (cfg : PortConfig) (used : List Nat) (osFree : Nat → Bool) :
    List Claimant → List Tool × List ToolUpdate × List (List Nat) → List Tool × List ToolUpdate × List (List Nat)
  | [], st => st
  | c :: cs, st => processGroup cfg used osFree cs (reassignOne cfg used osFree c st)

/-- The duplicate-port pass over all `used_ports` buckets: buckets with a
single claimant are untouched; for the rest the first claimant keeps the
port and every later claimant is processed. -/
def processGroups (cfg : PortConfig) (used : List Nat) (osFree : Nat → Bool) :
    List (String × List Claimant) → List Tool × List ToolUpdate × List (List Nat) → List Tool × List ToolUpdate × List (List Nat)
  | [], st => st
  | (_, cs) :: rest, st =>
    let st' := if 1 < cs.length then processGroup cfg used osFree (cs.drop 1) st else st
    processGroups cfg used osFree rest st'

/-- The missing-port inner loop over one tool's versions: a version whose
`released` object carries a falsy port gets a fresh allocation (one random
sample per call); the flag records whether any port was assigned. -/
def fillVersions (cfg : PortConfig) (used : List Nat) (osFree : Nat → Bool) :
    List Version → List (List Nat) → List Version × Bool × List (List Nat)
  | [], samples => ([], false, samples)
  | v :: vs, samples =>
    match v.released with
    | some r =>
      if pyTruthy r.port then
        let rest := fillVersions cfg used osFree vs samples
        (v :: rest.1, rest.2.1, rest.2.2)
      else
        let np := get_free_port cfg used osFree (samples.headD [])
        let vb : Version × Bool :=
          if pyTruthy np then ({ v with released := some { r with port := np } }, true)
          else (v, false)
        let rest := fillVersions cfg used osFree vs samples.tail
        (vb.1 :: rest.1, vb.2 || rest.2.1, rest.2.2)
    | none =>
      let rest := fillVersions cfg used osFree vs samples
      (v :: rest.1, rest.2.1, rest.2.2)

/-- The missing-port pass over all active tools, extending
`tools_to_update` for a tool that got a port, has a truthy id, and is not
already scheduled for update. -/
def fillMissingPass (cfg : PortConfig) (used : List Nat) (osFree : Nat → Bool) :
    List Tool → List ToolUpdate → List (List Nat) → List Tool × List ToolUpdate × List (List Nat)
  | [], updates, samples => ([], updates, samples)
  | t :: ts, updates, samples =>
    let f := fillVersions cfg used osFree t.versions samples
    let t' := { t with versions := f.1 }
    let updates' :=
      if f.2.1 && !(t.tool_id == "") && !(updates.any (fun u => u.tool_id == t.tool_id)) then
        updates ++ [⟨t.tool_id, f.1⟩]
      else updates
    let rest := fillMissingPass cfg used osFree ts updates' f.2.2
    (t' :: rest.1, rest.2.1, rest.2.2)

/-- `on_status` partition of `refresh_tools`: `"Offline"` and
`"Predefined"` tools are set aside, the rest are the active tools. -/
def activeFilter (tools : List Tool) : List Tool :=
  tools.filter (fun t => !(t.on_status == "Offline" || t.on_status == "Predefined"))

/-- Outcome of the port-reconciliation portion of one `refresh_tools`
call: the active tools after reassignment and the write-back batch. -/
structure RefreshResult where
  active : List Tool
  updates : List ToolUpdate
deriving Repr, DecidableEq

/-- The port-reconciliation portion of one `refresh_tools` call
(`routes/mcp_tools.py` lines 94-221): status partition, duplicate-port
pass, missing-port pass, and the accumulated `tools_to_update` batch that
is written back to the configuration store. -/
def refresh_tools (cfg : PortConfig) (used : List Nat) (osFree : Nat → Bool)
    (samples : List (List Nat)) (tools : List Tool) : RefreshResult :=
  let active := activeFilter tools
  let st1 := processGroups cfg used osFree (collectPorts active []) (active, [], samples)
  let st2 := fillMissingPass cfg used osFree st1.1 st1.2.1 st1.2.2
  ⟨st2.1, st2.2.1⟩

theorem isEmpty_false_of_ne {s : String} (h : s ≠ "") : s.isEmpty = false := by
  cases he : s.isEmpty with
  | false => rfl
  | true => exact absurd ((String.isEmpty_iff s).mp he) h

/-- **C1**: for two active tool specs with distinct names (and ids) that
both declare the same non-empty port `P` — whose numeric value `pn` is in
the allocator's used-ports cache, as the cache build from the store
guarantees for an in-range declared port — one `refresh_tools`
reconciliation leaves the first spec in fetch-list order untouched (it
still holds `P`), gives the later claimant the freshly allocated port
`q`, which is inside the configured range and different from `P`, and
issues exactly one write-back, updating the reassigned tool's versions,
to the configuration store. -/
theorem refresh_duplicate_port_reassignment
    (cfg : PortConfig) (used : List Nat) (osFree : Nat → Bool) (s0 : List Nat)
    (t1 t2 : Tool) (v1 v2 : Version) (r1 r2 : Released) (P : String) (pn q : Nat)
    (h1v : t1.versions = [v1]) (h1r : v1.released = some r1) (h1p : r1.port = some P)
    (h2v : t2.versions = [v2]) (h2r : v2.released = some r2) (h2p : r2.port = some P)
    (hPne : P ≠ "")
    (hname : t1.name ≠ t2.name)
    (hid : t1.tool_id ≠ t2.tool_id)
    (ha1 : t1.on_status ≠ "Offline") (hb1 : t1.on_status ≠ "Predefined")
    (ha2 : t2.on_status ≠ "Offline") (hb2 : t2.on_status ≠ "Predefined")
    (hP : pyInt? P = some pn) (hPused : pn ∈ used)
    (hsample : ∀ x ∈ s0, x ∈ gfpCandidates cfg used)
    (halloc : get_free_port_num cfg used osFree s0 = some q) :
    refresh_tools cfg used osFree [s0] [t1, t2] =
      ⟨[t1, { t2 with versions :=
          [{ v2 with released := some { r2 with port := some (natToStr q) } }] }],
        [⟨t2.tool_id, [{ v2 with released := some { r2 with port := some (natToStr q) } }]⟩]⟩
    ∧ cfg.start_port ≤ q ∧ q ≤ cfg.end_port ∧ q ≠ pn ∧ natToStr q ≠ P := by
  have hrange := get_free_port_num_range halloc
  have hnotused := get_free_port_num_not_used hsample halloc
  have hqpn : q ≠ pn := fun h => hnotused (h ▸ hPused)
  have hsne : natToStr q ≠ P := by
    intro h
    rw [← h, pyInt?_natToStr] at hP
    exact hqpn (Option.some.inj hP)
  have hPfalse : P.isEmpty = false := isEmpty_false_of_ne hPne
  have ht1 : ({ t1 with versions := [v1] } : Tool) = t1 := by rw [← h1v]
  have e1 : (t1.on_status == "Offline") = false := beq_eq_false_iff_ne.mpr ha1
  have e2 : (t1.on_status == "Predefined") = false := beq_eq_false_iff_ne.mpr hb1
  have e3 : (t2.on_status == "Offline") = false := beq_eq_false_iff_ne.mpr ha2
  have e4 : (t2.on_status == "Predefined") = false := beq_eq_false_iff_ne.mpr hb2
  have hact : activeFilter [t1, t2] = [t1, t2] := by
    simp [activeFilter, e1, e2, e3, e4]
  refine ⟨?_, hrange.1, hrange.2, hqpn, hsne⟩
  simp only [refresh_tools, hact]
  simp only [collectPorts, collectVersionPorts, h1v, h1r, h1p, h2v, h2r, h2p,
    pyTruthy, hPfalse, Bool.not_false, if_pos, Option.getD_some, dictAppend,
    if_neg, reduceIte]
  have hpg : processGroups cfg used osFree
      [(P, [(⟨t1.tool_id, t1.name, 0⟩ : Claimant)] ++ [(⟨t2.tool_id, t2.name, 0⟩ : Claimant)])]
      ([t1, t2], [], [s0]) =
      ([t1, { t2 with versions := [{ v2 with released := some { r2 with port := some (natToStr q) } }] }],
       [⟨t2.tool_id, [{ v2 with released := some { r2 with port := some (natToStr q) } }]⟩], []) := by
    simp [processGroups, processGroup, reassignOne, reassignFirst, reassignTool,
      setVersionPort, listModify, get_free_port, halloc, hid, pyTruthy_natToStr, h2v, h2r]
  rw [hpg]
  have hfill : fillMissingPass cfg used osFree
      [t1, { t2 with versions := [{ v2 with released := some { r2 with port := some (natToStr q) } }] }]
      [⟨t2.tool_id, [{ v2 with released := some { r2 with port := some (natToStr q) } }]⟩] [] =
      ([t1, { t2 with versions := [{ v2 with released := some { r2 with port := some (natToStr q) } }] }],
       [⟨t2.tool_id, [{ v2 with released := some { r2 with port := some (natToStr q) } }]⟩], []) := by
    simp [fillMissingPass, fillVersions, h1v, h1r, h1p, pyTruthy, hPfalse,
      natToStr_isEmpty_false, ht1]
  rw [hfill]

/-- Witness for C1 at a concrete configuration: two active tools `A` and
`B` both declaring port `"10005"`; after the refresh, `A` keeps `"10005"`
and `B` holds the freshly allocated in-range port `10000`, with exactly
one write-back for `B`. -/
theorem refresh_duplicate_port_reassignment_witness :
    refresh_tools ⟨10000, 10010⟩ [10005] (fun _ => true) [[]]
      [⟨"id1", "A", [⟨"1", some ⟨[], "uvx a", some "10005", "sse", []⟩⟩], "Online", ""⟩,
        ⟨"id2", "B", [⟨"1", some ⟨[], "uvx b", some "10005", "sse", []⟩⟩], "Online", ""⟩] =
      ⟨[⟨"id1", "A", [⟨"1", some ⟨[], "uvx a", some "10005", "sse", []⟩⟩], "Online", ""⟩,
        ⟨"id2", "B", [⟨"1", some ⟨[], "uvx b", some (natToStr 10000), "sse", []⟩⟩], "Online", ""⟩],
       [⟨"id2", [⟨"1", some ⟨[], "uvx b", some (natToStr 10000), "sse", []⟩⟩]⟩]⟩
    ∧ 10000 ≤ 10000 ∧ 10000 ≤ 10010 ∧ 10000 ≠ 10005 ∧ natToStr 10000 ≠ "10005" :=
  refresh_duplicate_port_reassignment ⟨10000, 10010⟩ [10005] (fun _ => true) []
    ⟨"id1", "A", [⟨"1", some ⟨[], "uvx a", some "10005", "sse", []⟩⟩], "Online", ""⟩
    ⟨"id2", "B", [⟨"1", some ⟨[], "uvx b", some "10005", "sse", []⟩⟩], "Online", ""⟩
    ⟨"1", some ⟨[], "uvx a", some "10005", "sse", []⟩⟩
    ⟨"1", some ⟨[], "uvx b", some "10005", "sse", []⟩⟩
    ⟨[], "uvx a", some "10005", "sse", []⟩
    ⟨[], "uvx b", some "10005", "sse", []⟩
    "10005" 10005 10000 rfl rfl rfl rfl rfl rfl (by decide) (by decide) (by decide)
    (by decide) (by decide) (by decide) (by decide) (by decide) (by decide)
    (by simp) (by decide)

/-! ### Desired-state fetches (`utils/_check_tools_status.py` `get_tools_info`
and `mcp_2/mcp_auto_manager.py` `_get_mcp_tools`) -/

/-- Outcome of one upstream Supabase query: `ok data` models a returned
response whose `.data` field is `data` (`none` for a null payload), `err`
a raised exception. -/
inductive Fetch (α : Type) where
  | ok (data : Option α)
  | err
deriving Repr, DecidableEq

/-- State of the module-level tools cache of `_check_tools_status.py`. -/
structure ToolsCacheState where
  cache : Option (List Tool)
  lastTime : Nat
deriving Repr, DecidableEq

/-- `_cache_ttl = 60` seconds. -/
def cache_ttl : Nat := 60

/-- The fetch path of `get_tools_info` (body of the `try`): a null
payload returns `[]` without touching the cache; data updates the cache;
an exception falls back to the cached value when one exists, else `[]`. -/
def toolsInfoFetch (st : ToolsCacheState) (now : Nat) (fetch : Fetch (List Tool)) :
    List Tool × ToolsCacheState :=
  match fetch with
  | .ok none => ([], st)
  | .ok (some d) => (d, ⟨some d, now⟩)
  | .err =>
    match st.cache with
    | some c => (c, st)
    | none => ([], st)

/-- `get_tools_info`: serve the cached value while it is fresh
(`now - lastTime < ttl`), otherwise fetch with stale-cache fallback. -/
def get_tools_info (st : ToolsCacheState) (now : Nat) (fetch : Fetch (List Tool)) :
    List Tool × ToolsCacheState :=
  match st.cache with
  | some c => if now - st.lastTime < cache_ttl then (c, st) else toolsInfoFetch st now fetch
  | none => toolsInfoFetch st now fetch

/-- `_get_mcp_tools` of the auto manager: `response.data if response.data
else []`; on any exception it logs and returns the empty list — there is
no cached fallback on this path. -/
def get_mcp_tools (fetch : Fetch (List Tool)) : List Tool :=
  match fetch with
  | .ok data => data.getD []
  | .err => []

/-! ### Spec translation and change detection of the auto manager -/

/-- One entry of `_parse_mcp_tools`' output. -/
structure PTool where
  name : String
  command : String
  port : String
deriving Repr, DecidableEq

/-- `env_flags = " ".join(f"-e {key} {value}" for key, value in env_vars.items())`. -/
def envFlags (env : List (String × String)) : String :=
  String.intercalate " " (env.map (fun kv => "-e " ++ kv.1 ++ " " ++ kv.2))

/-- `_parse_mcp_tools`: skip tools without versions and tools whose last
version has a falsy `released`; the port defaults to `"10000"` when the
version carries none; the command is the f-string
`mcp-proxy --sse-port={port} {env_flags} -- {args}` stripped of outer
whitespace. -/
def parse_mcp_tools (tools : List Tool) : List PTool :=
  tools.filterMap fun tool =>
    if tool.versions.isEmpty then none
    else
      match tool.versions.getLast? with
      | none => none
      | some lv =>
        match lv.released with
        | none => none
        | some released =>
          let port := released.port.getD "10000"
          let command := pyStrip ("mcp-proxy --sse-port=" ++ port ++ " " ++
            envFlags released.env ++ " -- " ++ released.args)
          some ⟨tool.name, command, port⟩

/-- The signature payload: `_get_tool_signature` hashes the sorted-key
JSON of `{name, command, port}` with md5; two tools get equal hashes
exactly when (collisions aside) this triple is equal, so the signature is
modelled as the triple itself. -/
abbrev Sig := String × String × String

def get_tool_signature (t : PTool) : Sig := (t.name, t.command, t.port)

/-- `new_signatures = {}; for tool in parsed: new_signatures[name] = sig`. -/
def buildSignatures (parsed : List PTool) : List (String × Sig) :=
  parsed.foldl (fun m t => dictInsert t.name (get_tool_signature t) m) []

/-- The `changes` dict of `_detect_tool_changes`. -/
structure Changes where
  added : List PTool
  removed : List String
  modified : List PTool
  unchanged : List PTool
deriving Repr, DecidableEq

/-- `next(t for t in parsed_tools if t['name'] == tool_name)` (the name
always comes from the signatures of `parsed`, so it is found). -/
def firstNamed (parsed : List PTool) (n : String) : List PTool :=
  match parsed.find? (fun t => t.name == n) with
  | some t => [t]
  | none => []

/-- The first loop of `_detect_tool_changes`: classify each entry of the
new signature map against the previous map. -/
def classifyEntries (prev : List (String × Sig)) (parsed : List PTool) :
    List (String × Sig) → Changes → Changes
  | [], ch => ch
  | (n, s) :: rest, ch =>
    let ch' :=
      match dictGet? prev n with
      | none => { ch with added := ch.added ++ firstNamed parsed n }
      | some old =>
        if old ≠ s then { ch with modified := ch.modified ++ firstNamed parsed n }
        else { ch with unchanged := ch.unchanged ++ firstNamed parsed n }
    classifyEntries prev parsed rest ch'

/-- The second loop of `_detect_tool_changes`: previous names absent from
the new signature map are removed. -/
def collectRemoved (newSigs : List (String × Sig)) :
    List (String × Sig) → Changes → Changes
  | [], ch => ch
  | (n, _) :: rest, ch =>
    let ch' :=
      if dictGet? newSigs n = none then { ch with removed := ch.removed ++ [n] } else ch
    collectRemoved newSigs rest ch'

/-- `_detect_tool_changes`: fetch, parse, build the new signature map,
classify, collect removals, and commit the new map as the next tick's
baseline. -/
def detect_tool_changes (sigs : List (String × Sig)) (fetch : Fetch (List Tool)) :
    Changes × List (String × Sig) :=
  let parsed := parse_mcp_tools (get_mcp_tools fetch)
  let newSigs := buildSignatures parsed
  let ch := classifyEntries sigs parsed newSigs ⟨[], [], [], []⟩
  (collectRemoved newSigs sigs ch, newSigs)

/-! ### Dict well-formedness lemmas -/

def dictKeys {β : Type} (m : List (String × β)) : List String := m.map Prod.fst

theorem mem_dictKeys_dictInsert {β : Type} {k x : String} {v : β} {m : List (String × β)}
    (h : x ∈ dictKeys (dictInsert k v m)) : x = k ∨ x ∈ dictKeys m := by
  induction m with
  | nil => simpa [dictInsert, dictKeys] using h
  | cons p rest ih =>
    obtain ⟨k', v'⟩ := p
    simp only [dictInsert] at h
    by_cases hk : k' = k
    · rw [if_pos hk] at h
      simp only [dictKeys, List.map_cons, List.mem_cons] at h
      rcases h with h1 | h1
      · left; rw [h1, hk]
      · right; simp [dictKeys, h1]
    · rw [if_neg hk] at h
      simp only [dictKeys, List.map_cons, List.mem_cons] at h
      rcases h with h1 | h1
      · right; simp [dictKeys, h1]
      · rcases ih h1 with h2 | h2
        · left; exact h2
        · right; simp only [dictKeys, List.map_cons, List.mem_cons]; right; exact h2

theorem dictKeys_dictInsert_nodup {β : Type} {k : String} {v : β} {m : List (String × β)}
    (h : (dictKeys m).Nodup) : (dictKeys (dictInsert k v m)).Nodup := by
  induction m with
  | nil => simp [dictInsert, dictKeys]
  | cons p rest ih =>
    obtain ⟨k', v'⟩ := p
    simp only [dictKeys, List.map_cons, List.nodup_cons] at h
    obtain ⟨hk', hrest⟩ := h
    simp only [dictInsert]
    by_cases hk : k' = k
    · rw [if_pos hk]
      simp only [dictKeys, List.map_cons, List.nodup_cons]
      exact ⟨hk', hrest⟩
    · rw [if_neg hk]
      simp only [dictKeys, List.map_cons, List.nodup_cons]
      refine ⟨?_, ih hrest⟩
      intro hmem
      rcases mem_dictKeys_dictInsert hmem with h1 | h1
      · exact hk h1
      · exact hk' h1

theorem dictGet?_eq_some_of_mem {β : Type} {m : List (String × β)}
    (h : (dictKeys m).Nodup) {p : String × β} (hp : p ∈ m) :
    dictGet? m p.1 = some p.2 := by
  induction m with
  | nil => simp at hp
  | cons q rest ih =>
    obtain ⟨k', v'⟩ := q
    simp only [dictKeys, List.map_cons, List.nodup_cons] at h
    rcases List.mem_cons.mp hp with h1 | h1
    · subst h1; simp [dictGet?]
    · have hne : k' ≠ p.1 := by
        intro he
        exact h.1 (he ▸ List.mem_map_of_mem Prod.fst h1)
      simp only [dictGet?, if_neg hne]
      exact ih h.2 h1

theorem buildSignatures_keys_nodup (parsed : List PTool) :
    (dictKeys (buildSignatures parsed)).Nodup := by
  have main : ∀ (l : List PTool) (acc : List (String × Sig)), (dictKeys acc).Nodup →
      (dictKeys (l.foldl (fun m t => dictInsert t.name (get_tool_signature t) m) acc)).Nodup := by
    intro l
    induction l with
    | nil => intro acc h; simpa using h
    | cons t ts ih =>
      intro acc h
      simp only [List.foldl_cons]
      exact ih _ (dictKeys_dictInsert_nodup h)
  simpa [buildSignatures] using main parsed [] (by simp [dictKeys])

/-- The `unchanged` entries accumulated by the classification loop. -/
def unchangedAcc (parsed : List PTool) : List (String × Sig) → List PTool
  | [] => []
  | (n, _) :: rest => firstNamed parsed n ++ unchangedAcc parsed rest

theorem classifyEntries_self (prev : List (String × Sig)) (parsed : List PTool) :
    ∀ (l : List (String × Sig)) (ch : Changes),
      (∀ p ∈ l, dictGet? prev p.1 = some p.2) →
      classifyEntries prev parsed l ch =
        { ch with unchanged := ch.unchanged ++ unchangedAcc parsed l } := by
  intro l
  induction l with
  | nil => intro ch h; simp [classifyEntries, unchangedAcc]
  | cons p rest ih =>
    intro ch h
    obtain ⟨n, s⟩ := p
    have hp : dictGet? prev n = some s := h (n, s) (List.mem_cons_self _ _)
    simp only [classifyEntries, hp]
    rw [if_neg (by simp)]
    rw [ih _ (fun q hq => h q (List.mem_cons_of_mem _ hq))]
    simp [unchangedAcc, List.append_assoc]

theorem collectRemoved_none (newSigs : List (String × Sig)) :
    ∀ (l : List (String × Sig)) (ch : Changes),
      (∀ p ∈ l, dictGet? newSigs p.1 ≠ none) →
      collectRemoved newSigs l ch = ch := by
  intro l
  induction l with
  | nil => intro ch h; simp [collectRemoved]
  | cons p rest ih =>
    intro ch h
    obtain ⟨n, s⟩ := p
    simp only [collectRemoved]
    rw [if_neg (h (n, s) (List.mem_cons_self _ _))]
    exact ih _ (fun q hq => h q (List.mem_cons_of_mem _ hq))

theorem find?_name_self {parsed : List PTool} (h : (parsed.map PTool.name).Nodup) :
    ∀ t ∈ parsed, parsed.find? (fun u => u.name == t.name) = some t := by
  induction parsed with
  | nil => intro t ht; simp at ht
  | cons a as ih =>
    intro t ht
    simp only [List.map_cons, List.nodup_cons] at h
    rcases List.mem_cons.mp ht with h1 | h1
    · subst h1
      simp [List.find?]
    · have hne : ¬ ((a.name == t.name) = true) := by
        simp only [beq_iff_eq]
        intro he
        exact h.1 (he ▸ List.mem_map_of_mem PTool.name h1)
      rw [List.find?_cons_of_neg (p := fun u => u.name == t.name) as hne]
      exact ih h.2 t h1

theorem dictInsert_append {β : Type} {k : String} {v : β} {m : List (String × β)}
    (h : k ∉ dictKeys m) : dictInsert k v m = m ++ [(k, v)] := by
  induction m with
  | nil => simp [dictInsert]
  | cons p rest ih =>
    obtain ⟨k', v'⟩ := p
    simp only [dictKeys, List.map_cons, List.mem_cons] at h
    push_neg at h
    simp only [dictInsert]
    rw [if_neg (fun he => h.1 he.symm)]
    rw [ih (by simpa [dictKeys] using h.2)]
    simp

theorem buildSignatures_eq_map (parsed : List PTool) (h : (parsed.map PTool.name).Nodup) :
    buildSignatures parsed = parsed.map (fun t => (t.name, get_tool_signature t)) := by
  have main : ∀ (l : List PTool) (acc : List (String × Sig)),
      (∀ t ∈ l, t.name ∉ dictKeys acc) → (l.map PTool.name).Nodup →
      l.foldl (fun m t => dictInsert t.name (get_tool_signature t) m) acc =
        acc ++ l.map (fun t => (t.name, get_tool_signature t)) := by
    intro l
    induction l with
    | nil => intro acc h1 h2; simp
    | cons t ts ih =>
      intro acc h1 h2
      simp only [List.foldl_cons]
      rw [dictInsert_append (h1 t (List.mem_cons_self _ _))]
      simp only [List.map_cons, List.nodup_cons] at h2
      rw [ih _ ?_ h2.2]
      · simp
      · intro u hu
        simp only [dictKeys, List.map_append, List.map_cons, List.map_nil, List.mem_append,
          List.mem_cons, List.not_mem_nil, or_false, not_or]
        refine ⟨h1 u (List.mem_cons_of_mem _ hu), ?_⟩
        intro he
        exact h2.1 (he ▸ List.mem_map_of_mem PTool.name hu)
  simpa [buildSignatures] using main parsed [] (by simp [dictKeys]) h

theorem unchangedAcc_map (parsed : List PTool) :
    ∀ (sub : List PTool), (∀ t ∈ sub, parsed.find? (fun u => u.name == t.name) = some t) →
      unchangedAcc parsed (sub.map (fun t => (t.name, get_tool_signature t))) = sub := by
  intro sub
  induction sub with
  | nil => intro h; simp [unchangedAcc]
  | cons t ts ih =>
    intro h
    simp only [List.map_cons, unchangedAcc, firstNamed, h t (List.mem_cons_self _ _)]
    rw [ih (fun u hu => h u (List.mem_cons_of_mem _ hu))]
    simp

/-- **C3**: reconciliation change detection is idempotent — running
`_detect_tool_changes` twice in a row with the same fetched tool list
yields, on the second run, empty `added`, `removed` and `modified` sets,
and (when tool names are unique, as the store's name-uniqueness check
enforces) classifies every parsed tool as `unchanged`, because the diff
compares per-name signatures against the committed baseline map. -/
theorem detect_tool_changes_idempotent (sigs : List (String × Sig)) (fetch : Fetch (List Tool)) :
    (detect_tool_changes (detect_tool_changes sigs fetch).2 fetch).1.added = [] ∧
    (detect_tool_changes (detect_tool_changes sigs fetch).2 fetch).1.modified = [] ∧
    (detect_tool_changes (detect_tool_changes sigs fetch).2 fetch).1.removed = [] ∧
    (((parse_mcp_tools (get_mcp_tools fetch)).map PTool.name).Nodup →
      (detect_tool_changes (detect_tool_changes sigs fetch).2 fetch).1.unchanged =
        parse_mcp_tools (get_mcp_tools fetch)) := by
  have hwf : ∀ p ∈ buildSignatures (parse_mcp_tools (get_mcp_tools fetch)),
      dictGet? (buildSignatures (parse_mcp_tools (get_mcp_tools fetch))) p.1 = some p.2 :=
    fun p hp => dictGet?_eq_some_of_mem (buildSignatures_keys_nodup _) hp
  have hrun : (detect_tool_changes (detect_tool_changes sigs fetch).2 fetch).1 =
      { added := [], removed := [], modified := [],
        unchanged := unchangedAcc (parse_mcp_tools (get_mcp_tools fetch))
          (buildSignatures (parse_mcp_tools (get_mcp_tools fetch))) } := by
    show collectRemoved (buildSignatures (parse_mcp_tools (get_mcp_tools fetch)))
        (buildSignatures (parse_mcp_tools (get_mcp_tools fetch)))
        (classifyEntries (buildSignatures (parse_mcp_tools (get_mcp_tools fetch)))
          (parse_mcp_tools (get_mcp_tools fetch))
          (buildSignatures (parse_mcp_tools (get_mcp_tools fetch))) ⟨[], [], [], []⟩) = _
    rw [classifyEntries_self _ _ _ _ hwf]
    rw [collectRemoved_none _ _ _ (fun p hp => by rw [hwf p hp]; simp)]
    rfl
  refine ⟨by rw [hrun], by rw [hrun], by rw [hrun], ?_⟩
  intro hnodup
  rw [hrun]
  show unchangedAcc _ _ = _
  rw [buildSignatures_eq_map _ hnodup]
  exact unchangedAcc_map _ _ (find?_name_self hnodup)

/-- Witness for C3: a concrete one-tool desired state; after a first
detection commits the baseline, the second detection classifies the tool
as unchanged with no added, removed or modified entries. -/
theorem detect_tool_changes_idempotent_witness :
    (detect_tool_changes
        (detect_tool_changes []
          (.ok (some [⟨"idA", "A", [⟨"1", some ⟨[], "uvx a", some "10001", "sse", []⟩⟩], "Online", ""⟩]))).2
        (.ok (some [⟨"idA", "A", [⟨"1", some ⟨[], "uvx a", some "10001", "sse", []⟩⟩], "Online", ""⟩]))).1.unchanged =
      parse_mcp_tools (get_mcp_tools
        (.ok (some [⟨"idA", "A", [⟨"1", some ⟨[], "uvx a", some "10001", "sse", []⟩⟩], "Online", ""⟩]))) :=
  (detect_tool_changes_idempotent []
    (.ok (some [⟨"idA", "A", [⟨"1", some ⟨[], "uvx a", some "10001", "sse", []⟩⟩], "Online", ""⟩]))).2.2.2
    (by decide)

/-- **C2 counterexample**: the auto manager's desired-state fetch
`_get_mcp_tools` has no cached fallback: when the upstream fetch raises
while a previous tick had fetched tool `A` (its signature baseline
exists), the call returns `[]` instead of the last good value, and the
next `_detect_tool_changes` classifies `A` as removed. -/
theorem get_mcp_tools_fetch_error_drops_tools :
    get_mcp_tools .err = [] ∧
    (detect_tool_changes [("A", ("A", "cmd", "10001"))] .err).1.removed = ["A"] ∧
    (detect_tool_changes [("A", ("A", "cmd", "10001"))] .err).1.unchanged = [] :=
  ⟨rfl, rfl, rfl⟩

/-- **C2 (amended)**: `get_tools_info` — the status checker's
desired-state fetch — returns the last good cached value whenever the
upstream fetch raises and a previously fetched value exists (fresh or
expired) without touching the cache state, so on that path a transient
store outage never empties the desired state; the auto manager's
`_get_mcp_tools` path instead returns `[]` on failure (see the
counterexample). -/
theorem get_tools_info_fetch_error_serves_cache
    (st : ToolsCacheState) (now : Nat) (c : List Tool) (hc : st.cache = some c) :
    (get_tools_info st now .err).1 = c ∧ (get_tools_info st now .err).2 = st := by
  simp only [get_tools_info, toolsInfoFetch, hc]
  by_cases h : now - st.lastTime < cache_ttl
  · rw [if_pos h]; exact ⟨rfl, rfl⟩
  · rw [if_neg h]; exact ⟨rfl, rfl⟩

/-- Witness for the amended C2: a concrete expired cache holding one tool
is served unchanged when the fetch raises. -/
theorem get_tools_info_fetch_error_serves_cache_witness :
    (get_tools_info ⟨some [⟨"idA", "A", [], "Online", ""⟩], 5⟩ 1000 .err).1 =
      [⟨"idA", "A", [], "Online", ""⟩] :=
  (get_tools_info_fetch_error_serves_cache ⟨some [⟨"idA", "A", [], "Online", ""⟩], 5⟩
    1000 [⟨"idA", "A", [], "Online", ""⟩] rfl).1

/-! ### Restart policy (`utils/_check_tools_status.py`, `check_tools_status`) -/

/-- `_restart_cooldown = 15 * 60` seconds. -/
def restart_cooldown : Nat := 15 * 60

/-- The predefined company id of `_check_tools_status.py`. -/
def PREDEFINED_COMPANY_ID : String := "95901eaa-c08d-4b0a-a5d6-3063a622cb98"

/-- The restart decision of `check_tools_status` for one tool whose
expected port is absent from the OS listening sockets (the
`port not in ports_info` branch): the tool is scheduled for restart iff
it does not belong to the predefined company, its status is neither
`"Offline"` nor `"Predefined"`, and at least the cooldown has passed
since the last recorded attempt (`_tool_restart_attempts.get(tool_id, 0)`);
scheduling records `now` as the new last-attempt time before the start is
even tried. -/
def restart_decision (companyId status : String) (attempts : List (String × Nat))
    (toolId : String) (now : Nat) : Bool × List (String × Nat) :=
  let last := (dictGet? attempts toolId).getD 0
  if companyId ≠ PREDEFINED_COMPANY_ID ∧ status ≠ "Offline" ∧ status ≠ "Predefined" ∧
      restart_cooldown ≤ now - last then
    (true, dictInsert toolId now attempts)
  else (false, attempts)

theorem dictGet?_dictInsert_self {β : Type} (k : String) (v : β) (m : List (String × β)) :
    dictGet? (dictInsert k v m) k = some v := by
  induction m with
  | nil => simp [dictInsert, dictGet?]
  | cons p rest ih =>
    obtain ⟨k', v'⟩ := p
    by_cases hk : k' = k
    · simp [dictInsert, dictGet?, hk]
    · simp [dictInsert, dictGet?, hk, ih]

theorem restart_decision_iff (companyId status : String) (attempts : List (String × Nat))
    (toolId : String) (now : Nat) :
    (restart_decision companyId status attempts toolId now).1 = true ↔
      (companyId ≠ PREDEFINED_COMPANY_ID ∧ status ≠ "Offline" ∧ status ≠ "Predefined" ∧
        restart_cooldown ≤ now - (dictGet? attempts toolId).getD 0) := by
  unfold restart_decision
  by_cases h : companyId ≠ PREDEFINED_COMPANY_ID ∧ status ≠ "Offline" ∧
      status ≠ "Predefined" ∧ restart_cooldown ≤ now - (dictGet? attempts toolId).getD 0
  · rw [if_pos h]; simpa using h
  · rw [if_neg h]; simpa using h

theorem restart_decision_updates (companyId status : String)
    (attempts : List (String × Nat)) (toolId : String) (now : Nat)
    (h : (restart_decision companyId status attempts toolId now).1 = true) :
    (restart_decision companyId status attempts toolId now).2 =
      dictInsert toolId now attempts := by
  unfold restart_decision at h ⊢
  by_cases hcnd : companyId ≠ PREDEFINED_COMPANY_ID ∧ status ≠ "Offline" ∧
      status ≠ "Predefined" ∧ restart_cooldown ≤ now - (dictGet? attempts toolId).getD 0
  · rw [if_pos hcnd]
  · rw [if_neg hcnd] at h; exact absurd h (by simp)

/-- **C4**: for a tool whose expected port is missing from the listening
sockets, a restart is attempted iff the tool is not administratively
disabled (predefined company / Offline / Predefined status) AND at least
the 15-minute cooldown has elapsed since the last recorded attempt; a
failure at `lastAttempt + cooldown − 1s` triggers no restart while one at
`lastAttempt + cooldown + 1s` does; every attempt updates the
last-attempt timestamp, and consequently no tool is restarted twice
within one cooldown interval. -/
theorem restart_cooldown_policy (companyId status : String)
    (attempts : List (String × Nat)) (toolId : String) (last : Nat)
    (hlast : (dictGet? attempts toolId).getD 0 = last)
    (hco : companyId ≠ PREDEFINED_COMPANY_ID)
    (hst1 : status ≠ "Offline") (hst2 : status ≠ "Predefined") :
    (∀ now, (restart_decision companyId status attempts toolId now).1 = true ↔
      (companyId ≠ PREDEFINED_COMPANY_ID ∧ status ≠ "Offline" ∧ status ≠ "Predefined" ∧
        restart_cooldown ≤ now - last)) ∧
    (restart_decision companyId status attempts toolId (last + restart_cooldown - 1)).1 = false ∧
    (restart_decision companyId status attempts toolId (last + restart_cooldown + 1)).1 = true ∧
    (∀ now, (restart_decision companyId status attempts toolId now).1 = true →
      dictGet? (restart_decision companyId status attempts toolId now).2 toolId = some now) ∧
    (∀ now now2, (restart_decision companyId status attempts toolId now).1 = true →
      now ≤ now2 → now2 < now + restart_cooldown →
      (restart_decision companyId status
        (restart_decision companyId status attempts toolId now).2 toolId now2).1 = false) := by
  have hrc : restart_cooldown = 900 := rfl
  have hiff : ∀ now, (restart_decision companyId status attempts toolId now).1 = true ↔
      (companyId ≠ PREDEFINED_COMPANY_ID ∧ status ≠ "Offline" ∧ status ≠ "Predefined" ∧
        restart_cooldown ≤ now - last) := by
    intro now
    rw [restart_decision_iff, hlast]
  refine ⟨hiff, ?_, ?_, ?_, ?_⟩
  · rw [Bool.eq_false_iff]
    intro hcontra
    have := ((hiff _).mp hcontra).2.2.2
    omega
  · exact (hiff _).mpr ⟨hco, hst1, hst2, by omega⟩
  · intro now h
    rw [restart_decision_updates companyId status attempts toolId now h,
      dictGet?_dictInsert_self]
  · intro now now2 h h1 h2
    rw [Bool.eq_false_iff]
    intro hcontra
    have hiff2 := (restart_decision_iff companyId status
      (restart_decision companyId status attempts toolId now).2 toolId now2).mp hcontra
    rw [restart_decision_updates companyId status attempts toolId now h,
      dictGet?_dictInsert_self] at hiff2
    have := hiff2.2.2.2
    simp only [Option.getD_some] at this
    omega

/-- Witness for C4 at a concrete state: tool `t1` last restarted at
second 1000; a failure 1 second before the cooldown expires is
suppressed, one 1 second after it fires. -/
theorem restart_cooldown_policy_witness :
    (restart_decision "c" "Online" [("t1", 1000)] "t1" (1000 + restart_cooldown - 1)).1 = false ∧
    (restart_decision "c" "Online" [("t1", 1000)] "t1" (1000 + restart_cooldown + 1)).1 = true :=
  ⟨(restart_cooldown_policy "c" "Online" [("t1", 1000)] "t1" 1000 rfl (by decide)
      (by decide) (by decide)).2.1,
    (restart_cooldown_policy "c" "Online" [("t1", 1000)] "t1" 1000 rfl (by decide)
      (by decide) (by decide)).2.2.1⟩

/-! ### Spec translator (`utils/_tool_args_converter.py`) -/

/-- One output entry of `tool_args_converter`. -/
structure ToolCmd where
  full_cmd : String
  required_env : List String
deriving Repr, DecidableEq

/-- The per-tool body of `tool_args_converter`; `none` means the tool is
skipped: the `continue` branches are (a) the `except` catching the
`IndexError`/`TypeError` of `tool["versions"][-1]["released"]` when
`versions` is empty or `released` is not a usable object, and (b) a
NON-empty `port` rejected by `int()`.  An empty or null port does NOT
skip: `port = str(int(port_value)) if port_value else ""` yields `""`
without raising, and `args` is never checked. -/
def convertTool (tool : Tool) : Option ToolCmd :=
  match tool.versions.getLast? with
  | none => none
  | some lv =>
    match lv.released with
    | none => none
    | some cfg =>
      let portStr :=
        if pyTruthy cfg.port then (pyInt? (cfg.port.getD "")).map natToStr
        else some ""
      match portStr with
      | none => none
      | some port =>
        let env_str := if cfg.env.isEmpty then "" else envFlags cfg.env ++ " "
        some ⟨pyReplaceDouble ("mcp-proxy --sse-port=" ++ port ++ " " ++ env_str ++
            "-- " ++ cfg.args), cfg.required_env⟩

/-- `tool_args_converter`: translate a batch, skipping per-tool failures
without aborting the rest. -/
def tool_args_converter (tools : List Tool) : List ToolCmd :=
  tools.filterMap convertTool

/-- **C5 counterexample**: a tool whose last version has empty `args` AND
empty `port` is NOT skipped — the falsy `port_value` short-circuits
`str(int(...))` — and yields a process spec with an empty port, refuting
both "requires a non-empty released.args" and "skips exactly those tools
whose released.port is empty or invalid". -/
theorem converter_keeps_empty_port_and_args :
    tool_args_converter
        [⟨"id0", "x", [⟨"1", some ⟨[], "", some "", "sse", []⟩⟩], "Online", ""⟩] =
      [⟨"mcp-proxy --sse-port= -- ", []⟩] := rfl

/-- **C5 (amended)**: the translator uses the last element of `versions`;
a tool is skipped (with a warning, without aborting the batch) iff its
versions list is empty, its last version lacks a truthy `released`
object, or its `released.port` is NON-empty and rejected by `int()`.
A tool with an empty or null port — or empty `args` — is NOT skipped,
and every non-skipped tool yields exactly one process spec. -/
theorem converter_skip_characterization (tool : Tool) :
    (convertTool tool = none ↔
      tool.versions.getLast? = none ∨
      (∃ lv, tool.versions.getLast? = some lv ∧ lv.released = none) ∨
      (∃ lv cfg s, tool.versions.getLast? = some lv ∧ lv.released = some cfg ∧
        cfg.port = some s ∧ s ≠ "" ∧ pyInt? s = none)) ∧
    (∀ c, convertTool tool = some c → tool_args_converter [tool] = [c]) := by
  constructor
  · cases hlv : tool.versions.getLast? with
    | none => simp [convertTool, hlv]
    | some lv =>
      cases hrel : lv.released with
      | none => simp [convertTool, hlv, hrel]
      | some cfg =>
        cases hport : cfg.port with
        | none =>
          simp [convertTool, hlv, hrel, hport, pyTruthy]
        | some s =>
          by_cases hs : s = ""
          · subst hs
            have hE : ("" : String).isEmpty = true := rfl
            simp [convertTool, hlv, hrel, hport, pyTruthy, hE]
          · have hsE : s.isEmpty = false := isEmpty_false_of_ne hs
            cases hn : pyInt? s with
            | none =>
              simp [convertTool, hlv, hrel, hport, pyTruthy, hsE, hn, hs]
            | some n =>
              simp [convertTool, hlv, hrel, hport, pyTruthy, hsE, hn, hs]
  · intro c hc
    simp [tool_args_converter, hc]

/-- Witness for the amended C5: a tool with the non-empty invalid port
`"abc"` is skipped. -/
theorem converter_skip_characterization_witness :
    convertTool ⟨"id1", "y", [⟨"1", some ⟨[], "a", some "abc", "sse", []⟩⟩], "Online", ""⟩ =
      none :=
  (converter_skip_characterization _).1.mpr
    (Or.inr (Or.inr ⟨_, _, "abc", rfl, rfl, rfl, by decide, by decide⟩))

/-- A string without two adjacent spaces is a fixed point of the
single-pass double-space replacement. -/
theorem replaceDoubleSpace_eq_self : ∀ (cs : List Char),
    hasDoubleSpace cs = false → replaceDoubleSpace cs = cs := by
  intro cs
  induction cs with
  | nil => intro h; rfl
  | cons c rest ih =>
    cases rest with
    | nil => intro h; rfl
    | cons d rest2 =>
      intro h
      unfold hasDoubleSpace at h
      unfold replaceDoubleSpace
      by_cases hc : c = ' ' ∧ d = ' '
      · rw [if_pos hc] at h; exact absurd h (by simp)
      · rw [if_neg hc] at h
        rw [if_neg hc, ih h]

/-- **C6 counterexample**: `.replace("  ", " ")` is a single
left-to-right pass, so three consecutive spaces inside `args` survive as
two — repeated whitespace is NOT always collapsed to single spaces in
the translated command. -/
theorem converter_double_space_survives :
    tool_args_converter
        [⟨"id2", "z", [⟨"1", some ⟨[], "a   b", some "10001", "sse", []⟩⟩], "Online", ""⟩] =
      [⟨"mcp-proxy --sse-port=10001 -- a  b", []⟩] ∧
    hasDoubleSpace ("mcp-proxy --sse-port=10001 -- a  b").data = true :=
  ⟨rfl, rfl⟩

/-- **C6 (amended)**: for every tool spec with a valid non-empty port,
the translated command equals exactly the template
`mcp-proxy --sse-port=<port> [-e KEY VALUE]... -- <args>` (env map
expanded to repeated `-e KEY VALUE` tokens, args after `--`)
post-processed by ONE left-to-right pass replacing each non-overlapping
two-space occurrence with one space (not full whitespace collapsing);
whenever that template has no two adjacent spaces, the command is exactly
the canonical single-spaced shape.  The translation is a pure function:
the command is determined by the spec's port, env and args alone. -/
theorem converter_command_shape (tool : Tool) (lv : Version) (cfg : Released)
    (s : String) (n : Nat)
    (hlv : tool.versions.getLast? = some lv) (hrel : lv.released = some cfg)
    (hport : cfg.port = some s) (hs : s ≠ "") (hn : pyInt? s = some n) :
    convertTool tool =
      some ⟨pyReplaceDouble ("mcp-proxy --sse-port=" ++ natToStr n ++ " " ++
          (if cfg.env.isEmpty then "" else envFlags cfg.env ++ " ") ++ "-- " ++ cfg.args),
        cfg.required_env⟩ ∧
    (hasDoubleSpace ("mcp-proxy --sse-port=" ++ natToStr n ++ " " ++
          (if cfg.env.isEmpty then "" else envFlags cfg.env ++ " ") ++ "-- " ++ cfg.args).data
        = false →
      convertTool tool =
        some ⟨"mcp-proxy --sse-port=" ++ natToStr n ++ " " ++
            (if cfg.env.isEmpty then "" else envFlags cfg.env ++ " ") ++ "-- " ++ cfg.args,
          cfg.required_env⟩) := by
  have hsE : s.isEmpty = false := isEmpty_false_of_ne hs
  have hmain : convertTool tool =
      some ⟨pyReplaceDouble ("mcp-proxy --sse-port=" ++ natToStr n ++ " " ++
          (if cfg.env.isEmpty then "" else envFlags cfg.env ++ " ") ++ "-- " ++ cfg.args),
        cfg.required_env⟩ := by
    simp [convertTool, hlv, hrel, hport, pyTruthy, hsE, hn]
  refine ⟨hmain, ?_⟩
  intro hnd
  rw [hmain]
  unfold pyReplaceDouble
  rw [replaceDoubleSpace_eq_self _ hnd]

/-- Witness for the amended C6 at a concrete spec with one env entry. -/
theorem converter_command_shape_witness :
    convertTool ⟨"id3", "w",
        [⟨"1", some ⟨[("K", "V")], "uvx srv", some "10007", "sse", []⟩⟩], "Online", ""⟩ =
      some ⟨pyReplaceDouble ("mcp-proxy --sse-port=" ++ natToStr 10007 ++ " " ++
          (if ([("K", "V")] : List (String × String)).isEmpty then ""
            else envFlags [("K", "V")] ++ " ") ++ "-- " ++ "uvx srv"), []⟩ :=
  (converter_command_shape
    ⟨"id3", "w", [⟨"1", some ⟨[("K", "V")], "uvx srv", some "10007", "sse", []⟩⟩], "Online", ""⟩
    ⟨"1", some ⟨[("K", "V")], "uvx srv", some "10007", "sse", []⟩⟩
    ⟨[("K", "V")], "uvx srv", some "10007", "sse", []⟩
    "10007" 10007 rfl rfl rfl (by decide) (by decide)).1

/-! ### Health checker (`mcp_2/mcp_auto_manager.py`) -/

/-- One entry of `self.running_processes` (the process handle itself is
irrelevant to the health computation). -/
structure RunEntry where
  command : String
  port : String
deriving Repr, DecidableEq

/-- `_check_log_for_uvicorn`: the log file content contains the readiness
marker `"Uvicorn running on"`; a missing file or read error is `false`. -/
def check_log_for_uvicorn (logContent : Option String) : Bool :=
  match logContent with
  | none => false
  | some c => containsSub "Uvicorn running on".data c.data

/-- The dict returned by `_check_tool_health`.  `port = none` models the
integer default `0` used for an untracked tool (falsy, like `""`). -/
structure HealthRecord where
  name : String
  port : Option String
  log_healthy : Bool
  port_healthy : Bool
  is_healthy : Bool
  status : String
deriving Repr, DecidableEq

/-- The `port` local of `_check_tool_health`: the stored port string of a
tracked tool, `none` for an untracked one (the Python integer default
`0`, falsy like `""`). -/
def runningPort (running : List (String × RunEntry)) (name : String) : Option String :=
  match dictGet? running name with
  | some e => some e.port
  | none => none

/-- The record construction of `_check_tool_health` given the stored
port and the log sub-signal; `none` models the uncaught `ValueError` of
`int(port)` on a non-numeric stored port (which the parser never
produces). -/
def healthFrom (name : String) (port : Option String) (log_healthy : Bool)
    (portActive : Nat → Bool) : Option HealthRecord :=
  match (if pyTruthy port then (pyInt? (port.getD "")).map portActive else some false) with
  | none => none
  | some port_healthy =>
    some ⟨name, port, log_healthy, port_healthy, log_healthy && port_healthy,
      if log_healthy && port_healthy then "🟢 Healthy" else "🔴 Unhealthy"⟩

/-- `_check_tool_health` for one tracked tool name: `running` is the
running-process table, `logContent` the content of the tool's log file
(`none` when missing), `portActive p` the outcome of the 3-second TCP
connect probe on localhost port `p`. -/
def check_tool_health (running : List (String × RunEntry)) (name : String)
    (logContent : Option String) (portActive : Nat → Bool) : Option HealthRecord :=
  healthFrom name (runningPort running name) (check_log_for_uvicorn logContent) portActive

theorem healthy_status_iff (b : Bool) :
    ((if b = true then "🟢 Healthy" else "🔴 Unhealthy") = "🟢 Healthy") ↔ b = true := by
  cases b with
  | true => simp
  | false =>
    simp only [Bool.false_eq_true, if_false]
    constructor
    · intro he; exact absurd he (by decide)
    · intro he; exact absurd he (by decide)

theorem healthFrom_some (name : String) (port : Option String) (lh : Bool)
    (portActive : Nat → Bool) (r : HealthRecord)
    (h : healthFrom name port lh portActive = some r) :
    r.port = port ∧ r.log_healthy = lh ∧
    r.is_healthy = (r.log_healthy && r.port_healthy) ∧
    (r.status = "🟢 Healthy" ↔ r.is_healthy = true) := by
  unfold healthFrom at h
  cases hm : (if pyTruthy port then (pyInt? (port.getD "")).map portActive else some false) with
  | none => rw [hm] at h; exact absurd h (by simp)
  | some ph =>
    rw [hm] at h
    cases h
    exact ⟨rfl, rfl, rfl, healthy_status_iff _⟩

theorem healthFrom_port_none (name : String) (lh : Bool) (portActive : Nat → Bool)
    (r : HealthRecord) (h : healthFrom name none lh portActive = some r) :
    r.port_healthy = false := by
  unfold healthFrom at h
  simp only [pyTruthy, Bool.false_eq_true, if_false] at h
  cases h
  rfl

theorem healthFrom_port_num (name : String) (s : String) (lh : Bool)
    (portActive : Nat → Bool) (r : HealthRecord) (n : Nat)
    (hs : s ≠ "") (hn : pyInt? s = some n)
    (h : healthFrom name (some s) lh portActive = some r) :
    r.port_healthy = portActive n := by
  unfold healthFrom at h
  have hsE : s.isEmpty = false := isEmpty_false_of_ne hs
  simp only [pyTruthy, hsE, Bool.not_false, if_pos, Option.getD_some, hn,
    Option.map_some] at h
  cases h
  rfl

/-- **C7**: whenever the health check returns a record, its composite
`is_healthy` equals the conjunction of the two reported raw sub-signals;
the log sub-signal is exactly the readiness-marker check on the log file
(missing file counts as unhealthy), the port sub-signal is the TCP probe
on the stored port (`false` for an untracked tool), and the display
status is Healthy exactly when the composite holds — so flipping either
sub-signal flips a Healthy composite. -/
theorem check_tool_health_composite (running : List (String × RunEntry)) (name : String)
    (logContent : Option String) (portActive : Nat → Bool) (r : HealthRecord)
    (h : check_tool_health running name logContent portActive = some r) :
    r.is_healthy = (r.log_healthy && r.port_healthy) ∧
    r.log_healthy = check_log_for_uvicorn logContent ∧
    (r.status = "🟢 Healthy" ↔ r.is_healthy = true) ∧
    (r.is_healthy = true ↔ (r.log_healthy = true ∧ r.port_healthy = true)) ∧
    (∀ e n, dictGet? running name = some e → pyInt? e.port = some n → e.port ≠ "" →
      r.port_healthy = portActive n) ∧
    (dictGet? running name = none → r.port_healthy = false) := by
  unfold check_tool_health at h
  obtain ⟨hp, hl, hand, hstat⟩ := healthFrom_some _ _ _ _ _ h
  refine ⟨hand, hl, hstat, ?_, ?_, ?_⟩
  · rw [hand, Bool.and_eq_true]
  · intro e n he hn hne
    have hrp : runningPort running name = some e.port := by
      unfold runningPort; rw [he]
    rw [hrp] at h
    exact healthFrom_port_num _ _ _ _ _ _ hne hn h
  · intro hnone
    have hrp : runningPort running name = none := by
      unfold runningPort; rw [hnone]
    rw [hrp] at h
    exact healthFrom_port_none _ _ _ _ h

/-- Witness for C7: a tracked tool on port `"10001"` with the readiness
marker present in its log and an active port is reported Healthy with
both sub-signals true. -/
theorem check_tool_health_composite_witness :
    (check_tool_health [("A", ⟨"cmd", "10001"⟩)] "A"
        (some "INFO: Uvicorn running on http") (fun _ => true)).map
      (fun r => (r.is_healthy, r.log_healthy, r.port_healthy)) = some (true, true, true) := by
  cases hr : check_tool_health [("A", ⟨"cmd", "10001"⟩)] "A"
      (some "INFO: Uvicorn running on http") (fun _ => true) with
  | none => exact absurd hr (by decide)
  | some r =>
    obtain ⟨h1, h2, -, -, h5, -⟩ := check_tool_health_composite _ _ _ _ r hr
    have hp : r.port_healthy = true := h5 ⟨"cmd", "10001"⟩ 10001 rfl (by decide) (by decide)
    have hl : r.log_healthy = true := by rw [h2]; decide
    simp [h1, hp, hl]

/-! ### Bounded output capture (`mcp_auto_manager._capture_logs_for_duration`) -/

/-- The scheduling performed by
`_capture_logs_for_duration(process, log_file, duration)`: a
`threading.Timer(duration, stop_logging)` is started, and `stop_logging`
itself begins with `time.sleep(duration)` before reassigning the
process's output attributes to the discard sink. -/
structure CaptureTimer where
  timerDelay : Nat
  callbackSleep : Nat
deriving Repr, DecidableEq

def capture_logs_for_duration (duration : Nat) : CaptureTimer :=
  ⟨duration, duration⟩

/-- Seconds after process start at which the scheduled discard-switch
code actually runs: the timer fires after `timerDelay` and its callback
sleeps `callbackSleep` more before acting. -/
def captureSwitchTime (t : CaptureTimer) (start : Nat) : Nat :=
  start + t.timerDelay + t.callbackSleep

/-- **C9**: `_start_single_tool` requests a 60-second capture window, but
the scheduled switch code runs only 120 seconds after start (the timer
waits `duration`, then its callback sleeps `duration` again before
touching the process), so at second 90 — after the claimed window — the
discard switch has not yet happened and output still goes to the log
file; the 60-second bound of the claim (and of the function's own
docstring) is not what the code implements. -/
theorem capture_logs_switch_time (start : Nat) :
    captureSwitchTime (capture_logs_for_duration 60) start = start + 120 ∧
    start + 60 < captureSwitchTime (capture_logs_for_duration 60) start ∧
    start + 90 < captureSwitchTime (capture_logs_for_duration 60) start := by
  refine ⟨?_, ?_, ?_⟩ <;> simp [captureSwitchTime, capture_logs_for_duration]

/-! ### Tool creation (`routes/tools.py`, `create_tool`) -/

/-- The pydantic `ToolVersion` of a creation request: `released` is a
required sub-model, so it is always present with all fields defaulted. -/
structure ReqVersion where
  version : String
  released : Released
deriving Repr, DecidableEq

/-- The `set_default_version` validator of `ToolCreate`: an absent or
empty versions list is replaced by the default `1.0.0` version with port
`"10001"`. -/
def set_default_version (versions : List ReqVersion) : List ReqVersion :=
  if versions.isEmpty then
    [⟨"1.0.0", ⟨[], "", some "10001", "sse", []⟩⟩]
  else versions

/-- The `versions_dict` loop of `create_tool`, with `i` the index of the
next `get_free_port()` call: each stored version dict is the request's
`version.dict()` with `released["port"]` overwritten by the `i`-th
allocator result (`none` models the stored `None` when the range is
exhausted).  The client-supplied port is never consulted. -/
def createVersionsAux (alloc : Nat → Option String) : Nat → List ReqVersion → List Version
  | _, [] => []
  | i, v :: vs =>
    ⟨v.version, some { v.released with port := alloc i }⟩ :: createVersionsAux alloc (i + 1) vs

def create_versions_dict (alloc : Nat → Option String) (versions : List ReqVersion) :
    List Version :=
  createVersionsAux alloc 0 versions

theorem createVersionsAux_get? (alloc : Nat → Option String) :
    ∀ (vs : List ReqVersion) (i0 i : Nat),
      (createVersionsAux alloc i0 vs).get? i =
        (vs.get? i).map (fun v => ⟨v.version, some { v.released with port := alloc (i0 + i) }⟩) := by
  intro vs
  induction vs with
  | nil => intro i0 i; simp [createVersionsAux]
  | cons v rest ih =>
    intro i0 i
    cases i with
    | zero => simp [createVersionsAux]
    | succ j =>
      simp only [createVersionsAux, List.get?_cons_succ]
      rw [ih (i0 + 1) j]
      have hadd : i0 + 1 + j = i0 + (j + 1) := by omega
      rw [hadd]

theorem createVersionsAux_length (alloc : Nat → Option String) :
    ∀ (vs : List ReqVersion) (i0 : Nat), (createVersionsAux alloc i0 vs).length = vs.length := by
  intro vs
  induction vs with
  | nil => intro i0; rfl
  | cons v rest ih => intro i0; simp [createVersionsAux, ih]

/-- **C10**: on every successful creation request with a non-empty
versions list (after pydantic validation), the stored `versions_dict` has
one entry per requested version; entry `i` keeps the request's `version`,
`env`, `args`, `method` and `required_env` unchanged and carries as
`released.port` exactly the `i`-th port allocator result; and the stored
list is invariant under any change of the client-supplied ports — the
client's port is always discarded, even when valid and free. -/
theorem create_tool_port_overwrite (alloc : Nat → Option String)
    (versions : List ReqVersion) (hne : versions ≠ []) :
    (create_versions_dict alloc (set_default_version versions)).length = versions.length ∧
    (∀ i v, versions.get? i = some v →
      (create_versions_dict alloc (set_default_version versions)).get? i =
        some ⟨v.version, some { v.released with port := alloc i }⟩) ∧
    (∀ p, create_versions_dict alloc
        (versions.map (fun v => ⟨v.version, { v.released with port := p }⟩)) =
      create_versions_dict alloc versions) := by
  have hsd : set_default_version versions = versions := by
    unfold set_default_version
    rw [if_neg (by simpa using hne)]
  refine ⟨?_, ?_, ?_⟩
  · rw [hsd]; exact createVersionsAux_length alloc versions 0
  · intro i v hv
    rw [hsd]
    unfold create_versions_dict
    rw [createVersionsAux_get? alloc versions 0 i, hv]
    simp
  · intro p
    unfold create_versions_dict
    have main : ∀ (vs : List ReqVersion) (i0 : Nat),
        createVersionsAux alloc i0 (vs.map (fun v => ⟨v.version, { v.released with port := p }⟩)) =
          createVersionsAux alloc i0 vs := by
      intro vs
      induction vs with
      | nil => intro i0; rfl
      | cons v rest ih => intro i0; simp [createVersionsAux, ih]
    exact main versions 0

/-- Witness for C10: a one-version request whose client chose port
`"10003"`; the stored version keeps every field but holds the allocator's
port `"10000"` instead. -/
theorem create_tool_port_overwrite_witness :
    (create_versions_dict (fun _ => some "10000")
        (set_default_version [⟨"1", ⟨[("K", "V")], "uvx srv", some "10003", "sse", ["K"]⟩⟩])).get? 0 =
      some ⟨"1", some ⟨[("K", "V")], "uvx srv", some "10000", "sse", ["K"]⟩⟩ :=
  (create_tool_port_overwrite (fun _ => some "10000")
      [⟨"1", ⟨[("K", "V")], "uvx srv", some "10003", "sse", ["K"]⟩⟩] (by decide)).2.1
    0 ⟨"1", ⟨[("K", "V")], "uvx srv", some "10003", "sse", ["K"]⟩⟩ rfl

end Amadeus
